import Mathlib

/-!
# Lifecycle orchestration of the custom SIEM agent

Shallow embedding of `wazuh/custom-siem/agent/main.go`: the functions `run`
and `generateAgentID`.

The collaborators (logger, config loader, the four stages, the signal channel,
the random source and the clock) are external; their results are the fields of
`Env`.  `run` is modelled as a function from `Env` to the sequence of calls it
makes on the collaborators (`Run.trace`) together with how it ends
(`Run.outcome`): it returns a value, or it never returns because it is blocked
in the `select` or inside a `Stop` call that does not return.
-/

namespace AgentMain

/-! ## Data model -/

/-- The four stages, in the order `run` constructs and starts them. -/
inductive Stage where
  | collector
  | processor
  | sender
  | monitor
  deriving DecidableEq, Repr

/-- The two signals registered with `signal.Notify`. -/
inductive Sig where
  | sigint
  | sigterm
  deriving DecidableEq, Repr

/-- Which case of the `select` fired. -/
inductive Wake where
  | signal (sig : Sig)
  | ctxDone
  deriving DecidableEq, Repr

/-- What a `Stop()` call on a stage double does: return (with or without an
error, which `run` never looks at) or never return. -/
inductive StopOutcome where
  | ok
  | err
  | hangs
  deriving DecidableEq, Repr

/-- The error values `run` returns, one per `fmt.Errorf` in the source. -/
inductive RunError where
  | initLogger
  | loadConfig
  | create (s : Stage)
  | start (s : Stage)
  deriving DecidableEq, Repr

/-- The `Info` log lines of `run`. -/
inductive LogLine where
  | starting (agentID : String)
  | started
  | receivedSignal (sig : Sig)
  | contextCancelled
  | shuttingDown
  | shutdownComplete
  deriving DecidableEq, Repr

/-- The calls `run` and `generateAgentID` make on their collaborators, as
recorded by instrumented doubles. `construct` carries the agent id for the
two constructors that receive it (`sender.New`, `monitor.New`). -/
inductive Event where
  | loggerInit (ok : Bool)
  | configLoad (ok : Bool)
  | callGenerateAgentID
  | randRead (ok : Bool)
  | timeNow
  | log (l : LogLine)
  | ctxWithCancel
  | construct (s : Stage) (agentID : Option String) (ok : Bool)
  | start (s : Stage) (ok : Bool)
  | stop (s : Stage)
  | getInput (s : Stage)
  | setOutput (producer consumer : Stage)
  | signalNotify
  | selectWait
  | wake (w : Wake)
  | shutdownCtxWithTimeout (seconds : Nat)
  | shutdownCancel
  | cancel
  deriving DecidableEq, Repr

/-- A function registered with `defer`. -/
inductive Deferred where
  | cancel
  | stop (s : Stage)
  | shutdownCancel
  deriving DecidableEq, Repr

/-- How an execution of `run` ends. -/
inductive Outcome where
  | returned (err : Option RunError)
  | blockedInSelect
  | blockedInStop (s : Stage)
  deriving DecidableEq, Repr

/-- An execution of `run`: the calls made, in order, and how it ended. -/
structure Run where
  trace : List Event
  outcome : Outcome
  deriving DecidableEq, Repr

/-- A byte. -/
abbrev Byte := Fin 256

/-- The environment of one execution: the `agent-id` flag and the results the
collaborators give. `stop s n` is what the call number `n` (from 0) of
`Stop()` on stage `s` does. `wake = none` means that no signal arrives and
the run context is never cancelled. -/
structure Env where
  agentID : String
  loggerInit : Bool
  configLoad : Bool
  rand : Option (Fin 16 → Byte)
  now : Int
  construct : Stage → Bool
  start : Stage → Bool
  stop : Stage → Nat → StopOutcome
  wake : Option Wake

/-! ## `generateAgentID` -/

/-- The constant `hextable` of `encoding/hex`. -/
def hextable : String :=
  "0123456789abcdef"

/-- The character `hextable[i]`. -/
def hexChar (i : Nat) : Char :=
  hextable.data.getD i '0'

/-- The loop of `hex.Encode`: for each byte `v`, `hextable[v>>4]` then
`hextable[v&0x0f]`. -/
def hexEncode : List Byte → List Char
  | [] => []
  | v :: rest => hexChar (v.val >>> 4) :: hexChar (v.val &&& 0x0f) :: hexEncode rest

/-- Function `hex.EncodeToString`. -/
def EncodeToString (src : List Byte) : String :=
  String.mk (hexEncode src)

/-- The verb `%d` of `fmt.Sprintf` on an `int64`: a minus sign for a negative
value, then the decimal digits of the magnitude. -/
def formatInt (t : Int) : List Char :=
  if t < 0 then '-' :: Nat.toDigits 10 t.natAbs else Nat.toDigits 10 t.natAbs

/-- Function `generateAgentID` as a function of the result of `rand.Read` on
the 16-byte buffer (`none`: it reported an error; `some b`: the bytes it
filled in) and of the reading `time.Now().Unix()`. The second component is
the calls made on the random source and the clock. -/
def generateAgentID (rand : Option (Fin 16 → Byte)) (now : Int) : String × List Event :=
  match rand with
  | none => (String.mk ("agent-".toList ++ formatInt now), [Event.randRead false, Event.timeNow])
  | some b => (EncodeToString (List.ofFn b), [Event.randRead true])

/-! ## `run` -/

/-- The stage of a `Stop()` call. -/
def Event.stopOf : Event → Option Stage
  | Event.stop s => some s
  | _ => none

/-- The stages that received a `Stop()` call, in call order. -/
def stopCalls (tr : List Event) : List Stage :=
  tr.filterMap Event.stopOf

/-- Number of `Stop()` calls already made on stage `s`. -/
def stopCount (s : Stage) (tr : List Event) : Nat :=
  (stopCalls tr).count s

/-- A `Stop()` call on stage `s`: the call is recorded, its result is
discarded; the boolean says whether the call returned. -/
def callStop (env : Env) (tr : List Event) (s : Stage) : List Event × Bool :=
  (tr ++ [Event.stop s], decide (env.stop s (stopCount s tr) ≠ StopOutcome.hangs))

/-- Runs the deferred calls, most recently deferred first (the head of the
list). Gives the trace and, when a deferred `Stop()` never returns, the stage
it is blocked in. -/
def runDeferred (env : Env) : List Deferred → List Event → List Event × Option Stage
  | [], tr => (tr, none)
  | Deferred.cancel :: ds, tr => runDeferred env ds (tr ++ [Event.cancel])
  | Deferred.shutdownCancel :: ds, tr => runDeferred env ds (tr ++ [Event.shutdownCancel])
  | Deferred.stop s :: ds, tr =>
    match callStop env tr s with
    | (tr1, true) => runDeferred env ds tr1
    | (tr1, false) => (tr1, some s)

/-- A `return err` statement of `run`: the deferred calls run, then the
caller gets `err`. -/
def ret (env : Env) (tr : List Event) (defers : List Deferred) (err : Option RunError) : Run :=
  match runDeferred env defers tr with
  | (tr1, none) => ⟨tr1, Outcome.returned err⟩
  | (tr1, some s) => ⟨tr1, Outcome.blockedInStop s⟩

/-- Lines 147-154 of `run`: the four explicit `Stop()` calls in the order
monitor, sender, processor, collector, the last log line and `return nil`. -/
def runStops (env : Env) (tr : List Event) (defers : List Deferred) : Run :=
  match callStop env tr Stage.monitor with
  | (tr1, false) => ⟨tr1, Outcome.blockedInStop Stage.monitor⟩
  | (tr1, true) =>
  match callStop env tr1 Stage.sender with
  | (tr2, false) => ⟨tr2, Outcome.blockedInStop Stage.sender⟩
  | (tr2, true) =>
  match callStop env tr2 Stage.processor with
  | (tr3, false) => ⟨tr3, Outcome.blockedInStop Stage.processor⟩
  | (tr3, true) =>
  match callStop env tr3 Stage.collector with
  | (tr4, false) => ⟨tr4, Outcome.blockedInStop Stage.collector⟩
  | (tr4, true) =>
  ret env (tr4 ++ [Event.log LogLine.shutdownComplete]) defers none

/-- The log line of the `select` case that fired. -/
def wakeLog : Wake → LogLine
  | Wake.signal sig => LogLine.receivedSignal sig
  | Wake.ctxDone => LogLine.contextCancelled

/-- Lines 124-145 of `run`: the two wiring statements, the signal
registration, the `select`, and the creation of the 30-second shutdown
context, whose cancel function is deferred and which is used nowhere else. -/
def runWait (env : Env) (tr : List Event) (defers : List Deferred) : Run :=
  let tr := tr ++ [Event.getInput Stage.processor, Event.setOutput Stage.collector Stage.processor]
  let tr := tr ++ [Event.getInput Stage.sender, Event.setOutput Stage.processor Stage.sender]
  let tr := tr ++ [Event.log LogLine.started, Event.signalNotify, Event.selectWait]
  match env.wake with
  | none => ⟨tr, Outcome.blockedInSelect⟩
  | some w =>
    let tr := tr ++ [Event.wake w]
    let tr := tr ++ [Event.log (wakeLog w)]
    let tr := tr ++ [Event.log LogLine.shuttingDown, Event.shutdownCtxWithTimeout 30]
    runStops env tr (Deferred.shutdownCancel :: defers)

/-- Lines 103-122 of `run`: the four `Start(ctx)` calls, each followed, when
it succeeded, by `defer <stage>.Stop()`. -/
def runStarts (env : Env) (tr : List Event) (defers : List Deferred) : Run :=
  let tr := tr ++ [Event.start Stage.collector (env.start Stage.collector)]
  if env.start Stage.collector = false then ret env tr defers (some (RunError.start Stage.collector)) else
  let defers := Deferred.stop Stage.collector :: defers
  let tr := tr ++ [Event.start Stage.processor (env.start Stage.processor)]
  if env.start Stage.processor = false then ret env tr defers (some (RunError.start Stage.processor)) else
  let defers := Deferred.stop Stage.processor :: defers
  let tr := tr ++ [Event.start Stage.sender (env.start Stage.sender)]
  if env.start Stage.sender = false then ret env tr defers (some (RunError.start Stage.sender)) else
  let defers := Deferred.stop Stage.sender :: defers
  let tr := tr ++ [Event.start Stage.monitor (env.start Stage.monitor)]
  if env.start Stage.monitor = false then ret env tr defers (some (RunError.start Stage.monitor)) else
  let defers := Deferred.stop Stage.monitor :: defers
  runWait env tr defers

/-- Lines 78-101 of `run`: the cancellable run context, `defer cancel()`, and
the four constructors; `sender.New` and `monitor.New` receive the agent id. -/
def runConstruct (env : Env) (agentID : String) (tr : List Event) : Run :=
  let tr := tr ++ [Event.ctxWithCancel]
  let defers := [Deferred.cancel]
  let tr := tr ++ [Event.construct Stage.collector none (env.construct Stage.collector)]
  if env.construct Stage.collector = false then ret env tr defers (some (RunError.create Stage.collector)) else
  let tr := tr ++ [Event.construct Stage.processor none (env.construct Stage.processor)]
  if env.construct Stage.processor = false then ret env tr defers (some (RunError.create Stage.processor)) else
  let tr := tr ++ [Event.construct Stage.sender (some agentID) (env.construct Stage.sender)]
  if env.construct Stage.sender = false then ret env tr defers (some (RunError.create Stage.sender)) else
  let tr := tr ++ [Event.construct Stage.monitor (some agentID) (env.construct Stage.monitor)]
  if env.construct Stage.monitor = false then ret env tr defers (some (RunError.create Stage.monitor)) else
  runStarts env tr defers

/-- Lines 67-70 of `run`: the agent id is the flag value, or the result of
`generateAgentID()` when the flag is the empty string. -/
def resolveAgentID (env : Env) (tr : List Event) : String × List Event :=
  if env.agentID = "" then
    let g := generateAgentID env.rand env.now
    (g.1, tr ++ Event.callGenerateAgentID :: g.2)
  else (env.agentID, tr)

/-- Function `run`. -/
def run (env : Env) : Run :=
  let tr := [Event.loggerInit env.loggerInit]
  if env.loggerInit = false then ret env tr [] (some RunError.initLogger) else
  let tr := tr ++ [Event.configLoad env.configLoad]
  if env.configLoad = false then ret env tr [] (some RunError.loadConfig) else
  let r := resolveAgentID env tr
  let tr := r.2 ++ [Event.log (LogLine.starting r.1)]
  runConstruct env r.1 tr

/-! ## Observations on a trace -/

/-- The stage and result of a `Start` call. -/
def Event.startOf : Event → Option (Stage × Bool)
  | Event.start s ok => some (s, ok)
  | _ => none

/-- The stage and result of a constructor call. -/
def Event.constructOf : Event → Option (Stage × Bool)
  | Event.construct s _ ok => some (s, ok)
  | _ => none

/-- Whether the event is one of the calls of the two wiring statements. -/
def Event.isWiring : Event → Bool
  | Event.getInput _ => true
  | Event.setOutput _ _ => true
  | _ => false

/-- The `Start` calls with their results, in call order. -/
def startCalls (tr : List Event) : List (Stage × Bool) :=
  tr.filterMap Event.startOf

/-- The constructor calls with their results, in call order. -/
def constructCalls (tr : List Event) : List (Stage × Bool) :=
  tr.filterMap Event.constructOf

/-- The wiring calls, in call order. -/
def wiringCalls (tr : List Event) : List Event :=
  tr.filter Event.isWiring

/-- The order in which `run` constructs and starts the stages. -/
def startOrder : List Stage :=
  [Stage.collector, Stage.processor, Stage.sender, Stage.monitor]

/-- The stages that come before `k` in the start order. -/
def startedBefore (k : Stage) : List Stage :=
  startOrder.takeWhile (fun s => decide (s ≠ k))

/-- Calls made in the order of `stages` up to and including the first one
whose result `f` is a failure, each with its result. -/
def untilFirstFailure (f : Stage → Bool) : List Stage → List (Stage × Bool)
  | [] => []
  | s :: rest => if f s = true then (s, true) :: untilFirstFailure f rest else [(s, false)]

/-- The two wiring statements of `run`: `collector.SetOutput(processor.GetInput())`
then `processor.SetOutput(sender.GetInput())`. -/
def wiring : List Event :=
  [Event.getInput Stage.processor, Event.setOutput Stage.collector Stage.processor,
   Event.getInput Stage.sender, Event.setOutput Stage.processor Stage.sender]

/-- The place of an event in the source text of `run`: a call of a later
block has a larger number. -/
def Event.phase : Event → Nat
  | Event.loggerInit _ => 0
  | Event.configLoad _ => 0
  | Event.callGenerateAgentID => 1
  | Event.randRead _ => 1
  | Event.timeNow => 1
  | Event.log (LogLine.starting _) => 2
  | Event.ctxWithCancel => 2
  | Event.construct _ _ _ => 3
  | Event.start _ _ => 4
  | Event.getInput _ => 5
  | Event.setOutput _ _ => 5
  | Event.log LogLine.started => 6
  | Event.signalNotify => 6
  | Event.selectWait => 6
  | Event.wake _ => 7
  | Event.log (LogLine.receivedSignal _) => 7
  | Event.log LogLine.contextCancelled => 7
  | Event.log LogLine.shuttingDown => 7
  | Event.shutdownCtxWithTimeout _ => 7
  | Event.stop _ => 8
  | Event.log LogLine.shutdownComplete => 8
  | Event.shutdownCancel => 8
  | Event.cancel => 9

/-- The environment `env` with the results of the `Stop()` calls replaced. -/
def Env.withStop (env : Env) (f : Stage → Nat → StopOutcome) : Env :=
  ⟨env.agentID, env.loggerInit, env.configLoad, env.rand, env.now, env.construct, env.start, f,
    env.wake⟩

/-- The trace `full` is `tr` followed by events of block `k` or later. -/
def Extends (k : Nat) (tr full : List Event) : Prop :=
  ∃ ext, full = tr ++ ext ∧ ∀ e ∈ ext, k ≤ e.phase

/-- Whether `f` succeeds on all four stages. -/
def allOk (f : Stage → Bool) : Bool :=
  f Stage.collector && f Stage.processor && f Stage.sender && f Stage.monitor

/-- Whether `c` is one of `0`-`9` or `a`-`f`. -/
def isLowerHex (c : Char) : Bool :=
  (48 ≤ c.toNat && c.toNat ≤ 57) || (97 ≤ c.toNat && c.toNat ≤ 102)

/-- The lowercase hexadecimal digit for the value `n` of a nibble. -/
def nibbleChar (n : Nat) : Char :=
  if n < 10 then Char.ofNat (48 + n) else Char.ofNat (87 + n)

/-- The number a string of decimal digits denotes. -/
def decimalValue (ds : List Char) : Nat :=
  ds.foldl (fun acc c => 10 * acc + (c.toNat - 48)) 0

/-- Whether `s` is `agent-` followed by one or more decimal digits and
nothing else. -/
def isAgentDigits (s : String) : Bool :=
  match s.data with
  | 'a' :: 'g' :: 'e' :: 'n' :: 't' :: '-' :: d :: ds => (d :: ds).all Char.isDigit
  | _ => false

/-- A sample environment: everything succeeds and SIGTERM arrives. -/
def envOk : Env :=
  ⟨"", true, true, some (fun i => ⟨i.val * 17 % 256, Nat.mod_lt _ (by decide)⟩), 1700000000,
    fun _ => true, fun _ => true, fun _ _ => StopOutcome.ok, some (Wake.signal Sig.sigterm)⟩

/-- The events from the first log line to the last constructor call when
every constructor succeeds. -/
def constructedEvents (agentID : String) : List Event :=
  [Event.log (LogLine.starting agentID), Event.ctxWithCancel,
   Event.construct Stage.collector none true, Event.construct Stage.processor none true,
   Event.construct Stage.sender (some agentID) true,
   Event.construct Stage.monitor (some agentID) true]

/-- A sample environment: `sender.New` fails. -/
def envSenderNewFails : Env :=
  ⟨"agent-42", true, true, none, 0, fun s => decide (s ≠ Stage.sender), fun _ => true,
    fun _ _ => StopOutcome.ok, some (Wake.signal Sig.sigint)⟩

/-- The events from the first log line to the `select` when every
constructor and every `Start` succeeds. -/
def startupEvents (agentID : String) : List Event :=
  constructedEvents agentID
  ++ [Event.start Stage.collector true, Event.start Stage.processor true,
      Event.start Stage.sender true, Event.start Stage.monitor true]
  ++ wiring ++ [Event.log LogLine.started, Event.signalNotify, Event.selectWait]

/-- The events from the wake to the return when every `Stop()` call returns:
the explicit shutdown sequence, then the deferred calls. -/
def shutdownEvents (w : Wake) : List Event :=
  [Event.wake w, Event.log (wakeLog w), Event.log LogLine.shuttingDown,
   Event.shutdownCtxWithTimeout 30,
   Event.stop Stage.monitor, Event.stop Stage.sender, Event.stop Stage.processor,
   Event.stop Stage.collector, Event.log LogLine.shutdownComplete,
   Event.shutdownCancel,
   Event.stop Stage.monitor, Event.stop Stage.sender, Event.stop Stage.processor,
   Event.stop Stage.collector, Event.cancel]

/-- A sample environment: the agent id is given, `sender.Start` fails, and
every `Stop()` call reports an error. -/
def envSenderStartFails : Env :=
  ⟨"agent-42", true, true, none, 0, fun _ => true, fun s => decide (s ≠ Stage.sender),
    fun _ _ => StopOutcome.err, none⟩

/-- A sample environment: everything succeeds, SIGTERM arrives, and the first
`Stop()` call on the monitor never returns. -/
def envMonitorStopHangs : Env :=
  ⟨"agent-42", true, true, none, 0, fun _ => true, fun _ => true,
    fun s n => if s = Stage.monitor ∧ n = 0 then StopOutcome.hangs else StopOutcome.ok,
    some (Wake.signal Sig.sigterm)⟩

/-! ## Auxiliary lemmas: observations and appended events -/

theorem stopCalls_append (a b : List Event) :
    stopCalls (a ++ b) = stopCalls a ++ stopCalls b := by
  simp [stopCalls]

theorem startCalls_append (a b : List Event) :
    startCalls (a ++ b) = startCalls a ++ startCalls b := by
  simp [startCalls]

theorem constructCalls_append (a b : List Event) :
    constructCalls (a ++ b) = constructCalls a ++ constructCalls b := by
  simp [constructCalls]

theorem wiringCalls_append (a b : List Event) :
    wiringCalls (a ++ b) = wiringCalls a ++ wiringCalls b := by
  simp [wiringCalls]

theorem stopCalls_cons (e : Event) (a : List Event) :
    stopCalls (e :: a) = (match e.stopOf with | some s => [s] | none => []) ++ stopCalls a := by
  cases e <;> simp [stopCalls, Event.stopOf]

theorem startCalls_cons (e : Event) (a : List Event) :
    startCalls (e :: a) = (match e.startOf with | some s => [s] | none => []) ++ startCalls a := by
  cases e <;> simp [startCalls, Event.startOf]

theorem constructCalls_cons (e : Event) (a : List Event) :
    constructCalls (e :: a)
      = (match e.constructOf with | some s => [s] | none => []) ++ constructCalls a := by
  cases e <;> simp [constructCalls, Event.constructOf]

theorem wiringCalls_cons (e : Event) (a : List Event) :
    wiringCalls (e :: a) = (if e.isWiring = true then [e] else []) ++ wiringCalls a := by
  cases h : e.isWiring <;> simp [wiringCalls, List.filter_cons, h]

theorem stopCalls_nil : stopCalls [] = [] := rfl

theorem startCalls_nil : startCalls [] = [] := rfl

theorem constructCalls_nil : constructCalls [] = [] := rfl

theorem wiringCalls_nil : wiringCalls [] = [] := rfl

/-- Events of other blocks than the start block are no `Start` calls. -/
theorem startCalls_eq_nil_of_phase (ext : List Event) (h : ∀ e ∈ ext, e.phase ≠ 4) :
    startCalls ext = [] := by
  induction ext with
  | nil => rfl
  | cons e rest ih =>
    have he := h e (List.mem_cons_self _ _)
    have hr := ih (fun x hx => h x (List.mem_cons_of_mem _ hx))
    cases e <;> simp_all [startCalls_cons, Event.startOf, Event.phase]

/-- Events of other blocks than the construction block are no constructor
calls. -/
theorem constructCalls_eq_nil_of_phase (ext : List Event) (h : ∀ e ∈ ext, e.phase ≠ 3) :
    constructCalls ext = [] := by
  induction ext with
  | nil => rfl
  | cons e rest ih =>
    have he := h e (List.mem_cons_self _ _)
    have hr := ih (fun x hx => h x (List.mem_cons_of_mem _ hx))
    cases e <;> simp_all [constructCalls_cons, Event.constructOf, Event.phase]

/-- Events of other blocks than the wiring statements are no wiring calls. -/
theorem wiringCalls_eq_nil_of_phase (ext : List Event) (h : ∀ e ∈ ext, e.phase ≠ 5) :
    wiringCalls ext = [] := by
  induction ext with
  | nil => rfl
  | cons e rest ih =>
    have he := h e (List.mem_cons_self _ _)
    have hr := ih (fun x hx => h x (List.mem_cons_of_mem _ hx))
    cases e <;> simp_all [wiringCalls_cons, Event.isWiring, Event.phase]

/-- Events of other blocks than the shutdown sequence and the deferred calls
are no `Stop()` calls. -/
theorem stopCalls_eq_nil_of_phase (ext : List Event) (h : ∀ e ∈ ext, e.phase ≠ 8) :
    stopCalls ext = [] := by
  induction ext with
  | nil => rfl
  | cons e rest ih =>
    have he := h e (List.mem_cons_self _ _)
    have hr := ih (fun x hx => h x (List.mem_cons_of_mem _ hx))
    cases e <;> simp_all [stopCalls_cons, Event.stopOf, Event.phase]

theorem Extends.refl (k : Nat) (tr : List Event) : Extends k tr tr :=
  ⟨[], by simp, by simp⟩

theorem Extends.of_append {k : Nat} {tr evs full : List Event}
    (h : Extends k (tr ++ evs) full) (hev : ∀ e ∈ evs, k ≤ e.phase) : Extends k tr full := by
  obtain ⟨ext, h1, h2⟩ := h
  refine ⟨evs ++ ext, by simp [h1], ?_⟩
  intro e he
  rcases List.mem_append.mp he with he | he
  · exact hev e he
  · exact h2 e he

theorem Extends.mono {k j : Nat} {tr full : List Event} (hj : j ≤ k) (h : Extends k tr full) :
    Extends j tr full := by
  obtain ⟨ext, h1, h2⟩ := h
  exact ⟨ext, h1, fun e he => Nat.le_trans hj (h2 e he)⟩

theorem Extends.startCalls_eq {tr full : List Event} (h : Extends 5 tr full) :
    startCalls full = startCalls tr := by
  obtain ⟨ext, h1, h2⟩ := h
  simp [h1, startCalls_append, startCalls_eq_nil_of_phase ext (fun e he => by have := h2 e he; omega)]

theorem Extends.constructCalls_eq {tr full : List Event} (h : Extends 4 tr full) :
    constructCalls full = constructCalls tr := by
  obtain ⟨ext, h1, h2⟩ := h
  simp [h1, constructCalls_append, constructCalls_eq_nil_of_phase ext (fun e he => by have := h2 e he; omega)]

theorem Extends.wiringCalls_eq {tr full : List Event} (h : Extends 6 tr full) :
    wiringCalls full = wiringCalls tr := by
  obtain ⟨ext, h1, h2⟩ := h
  simp [h1, wiringCalls_append, wiringCalls_eq_nil_of_phase ext (fun e he => by have := h2 e he; omega)]

theorem Extends.mem_iff {k : Nat} {tr full : List Event} (h : Extends k tr full) (e : Event)
    (he : e.phase < k) : e ∈ full ↔ e ∈ tr := by
  obtain ⟨ext, h1, h2⟩ := h
  subst h1
  constructor
  · intro hm
    rcases List.mem_append.mp hm with hm | hm
    · exact hm
    · exact absurd (h2 e hm) (Nat.not_le.mpr he)
  · intro hm
    exact List.mem_append.mpr (Or.inl hm)

/-- Where `full` is cut just before an event `e` of a later block than all
of `tr`, the cut falls after `tr`. -/
theorem Extends.split {k : Nat} {tr full pre post : List Event} {e : Event}
    (h : Extends k tr full) (hfull : full = pre ++ e :: post)
    (hlt : ∀ x ∈ tr, x.phase < e.phase) :
    ∃ a, pre = tr ++ a ∧ ∀ x ∈ a, k ≤ x.phase := by
  obtain ⟨ext, h1, h2⟩ := h
  rw [h1] at hfull
  rcases List.append_eq_append_iff.mp hfull with ⟨a, ha1, ha2⟩ | ⟨c, hc1, hc2⟩
  · refine ⟨a, ha1, ?_⟩
    intro x hx
    exact h2 x (by rw [ha2]; exact List.mem_append.mpr (Or.inl hx))
  · cases c with
    | nil => exact ⟨[], by simpa using hc1.symm, by simp⟩
    | cons c0 cs =>
      have hc0 : e = c0 := by
        have := congrArg List.head? hc2
        simpa using this
      have hmem : e ∈ tr := by
        rw [hc1, hc0]
        exact List.mem_append.mpr (Or.inr (List.mem_cons_self _ _))
      exact absurd (hlt e hmem) (Nat.lt_irrefl _)

/-- The deferred calls only append `Stop()` calls and the two cancel calls. -/
theorem runDeferred_ext (env : Env) (ds : List Deferred) (tr : List Event) :
    Extends 8 tr (runDeferred env ds tr).1 := by
  induction ds generalizing tr with
  | nil => exact Extends.refl _ _
  | cons d ds ih =>
    cases d with
    | cancel =>
      exact Extends.of_append (ih (tr ++ [Event.cancel])) (by simp [Event.phase])
    | shutdownCancel =>
      exact Extends.of_append (ih (tr ++ [Event.shutdownCancel])) (by simp [Event.phase])
    | stop s =>
      by_cases hh : env.stop s (stopCount s tr) = StopOutcome.hangs
      · exact ⟨[Event.stop s], by simp [runDeferred, callStop, hh], by simp [Event.phase]⟩
      · have h := Extends.of_append (ih (tr ++ [Event.stop s]))
          (by simp [Event.phase] : ∀ e ∈ [Event.stop s], 8 ≤ e.phase)
        simpa [runDeferred, callStop, hh] using h

/-- A `return` only appends `Stop()` calls and the two cancel calls. -/
theorem ret_ext (env : Env) (tr : List Event) (ds : List Deferred) (err : Option RunError) :
    Extends 8 tr (ret env tr ds err).trace := by
  have h := runDeferred_ext env ds tr
  unfold ret
  split <;> simp_all

/-- The shutdown sequence only appends `Stop()` calls, the last log line and
the two cancel calls. -/
theorem runStops_ext (env : Env) (tr : List Event) (ds : List Deferred) :
    Extends 8 tr (runStops env tr ds).trace := by
  unfold runStops callStop
  by_cases h1 : env.stop Stage.monitor (stopCount Stage.monitor tr) = StopOutcome.hangs
  · exact ⟨[Event.stop Stage.monitor], by simp [h1], by simp [Event.phase]⟩
  by_cases h2 : env.stop Stage.sender (stopCount Stage.sender (tr ++ [Event.stop Stage.monitor]))
      = StopOutcome.hangs
  · exact ⟨[Event.stop Stage.monitor, Event.stop Stage.sender], by simp [h1, h2],
      by simp [Event.phase]⟩
  by_cases h3 : env.stop Stage.processor (stopCount Stage.processor
      (tr ++ [Event.stop Stage.monitor, Event.stop Stage.sender])) = StopOutcome.hangs
  · exact ⟨[Event.stop Stage.monitor, Event.stop Stage.sender, Event.stop Stage.processor],
      by simp [h1, h2, h3], by simp [Event.phase]⟩
  by_cases h4 : env.stop Stage.collector (stopCount Stage.collector
      (tr ++ [Event.stop Stage.monitor, Event.stop Stage.sender, Event.stop Stage.processor]))
      = StopOutcome.hangs
  · exact ⟨[Event.stop Stage.monitor, Event.stop Stage.sender, Event.stop Stage.processor,
      Event.stop Stage.collector], by simp [h1, h2, h3, h4], by simp [Event.phase]⟩
  have h := Extends.of_append (ret_ext env (tr ++ [Event.stop Stage.monitor, Event.stop Stage.sender,
    Event.stop Stage.processor, Event.stop Stage.collector, Event.log LogLine.shutdownComplete])
    ds none) (by simp [Event.phase])
  simpa [h1, h2, h3, h4] using h

/-- After the `select`, `run` only appends events of the shutdown. -/
theorem runWait_ext (env : Env) (tr : List Event) (ds : List Deferred) :
    Extends 7 (tr ++ wiring ++ [Event.log LogLine.started, Event.signalNotify, Event.selectWait])
      (runWait env tr ds).trace := by
  unfold runWait
  cases hw : env.wake with
  | none => simpa [wiring] using Extends.refl _ _
  | some w =>
    have h := Extends.of_append (Extends.mono (by decide : 7 ≤ 8) (runStops_ext env
      (tr ++ wiring ++ [Event.log LogLine.started, Event.signalNotify, Event.selectWait]
        ++ [Event.wake w, Event.log (wakeLog w),
          Event.log LogLine.shuttingDown, Event.shutdownCtxWithTimeout 30])
      (Deferred.shutdownCancel :: ds))) (by cases w <;> simp [Event.phase, wakeLog])
    simpa [wiring] using h

/-- The start block only appends `Start` calls and events of later blocks. -/
theorem runStarts_ext (env : Env) (tr : List Event) (ds : List Deferred) :
    Extends 4 tr (runStarts env tr ds).trace := by
  unfold runStarts
  simp only []
  split
  · exact Extends.of_append (Extends.mono (by decide) (ret_ext _ _ _ _)) (by simp [Event.phase])
  split
  · exact Extends.of_append (Extends.of_append (Extends.mono (by decide) (ret_ext _ _ _ _))
      (by simp [Event.phase])) (by simp [Event.phase])
  split
  · exact Extends.of_append (Extends.of_append (Extends.of_append
      (Extends.mono (by decide) (ret_ext _ _ _ _))
      (by simp [Event.phase])) (by simp [Event.phase])) (by simp [Event.phase])
  split
  · exact Extends.of_append (Extends.of_append (Extends.of_append (Extends.of_append
      (Extends.mono (by decide) (ret_ext _ _ _ _))
      (by simp [Event.phase])) (by simp [Event.phase])) (by simp [Event.phase]))
      (by simp [Event.phase])
  · exact Extends.of_append (Extends.of_append (Extends.of_append (Extends.of_append
      (Extends.of_append (Extends.of_append
      (Extends.mono (by decide) (runWait_ext _ _ _))
      (by simp [Event.phase])) (by simp [Event.phase, wiring]))
      (by simp [Event.phase])) (by simp [Event.phase])) (by simp [Event.phase]))
      (by simp [Event.phase])
theorem ret_constructCalls (env : Env) (tr : List Event) (ds : List Deferred)
    (err : Option RunError) : constructCalls (ret env tr ds err).trace = constructCalls tr :=
  (Extends.mono (by decide) (ret_ext env tr ds err)).constructCalls_eq

theorem ret_startCalls (env : Env) (tr : List Event) (ds : List Deferred)
    (err : Option RunError) : startCalls (ret env tr ds err).trace = startCalls tr :=
  (Extends.mono (by decide) (ret_ext env tr ds err)).startCalls_eq

theorem ret_wiringCalls (env : Env) (tr : List Event) (ds : List Deferred)
    (err : Option RunError) : wiringCalls (ret env tr ds err).trace = wiringCalls tr :=
  (Extends.mono (by decide) (ret_ext env tr ds err)).wiringCalls_eq

theorem ret_mem (env : Env) (tr : List Event) (ds : List Deferred) (err : Option RunError)
    (e : Event) (he : e.phase < 8) : e ∈ (ret env tr ds err).trace ↔ e ∈ tr :=
  (ret_ext env tr ds err).mem_iff e he

theorem runWait_startCalls (env : Env) (tr : List Event) (ds : List Deferred) :
    startCalls (runWait env tr ds).trace = startCalls tr := by
  rw [(Extends.mono (by decide) (runWait_ext env tr ds)).startCalls_eq]
  simp [startCalls_append, startCalls_cons, Event.startOf, wiring, startCalls_nil]

theorem runWait_wiringCalls (env : Env) (tr : List Event) (ds : List Deferred) :
    wiringCalls (runWait env tr ds).trace = wiringCalls tr ++ wiring := by
  rw [(Extends.mono (by decide) (runWait_ext env tr ds)).wiringCalls_eq]
  simp [wiringCalls_append, wiringCalls_cons, Event.isWiring, wiring, wiringCalls_nil]

theorem runStarts_constructCalls (env : Env) (tr : List Event) (ds : List Deferred) :
    constructCalls (runStarts env tr ds).trace = constructCalls tr :=
  (runStarts_ext env tr ds).constructCalls_eq

theorem runStarts_mem (env : Env) (tr : List Event) (ds : List Deferred)
    (e : Event) (he : e.phase < 4) : e ∈ (runStarts env tr ds).trace ↔ e ∈ tr :=
  (runStarts_ext env tr ds).mem_iff e he

/-- The identity resolution only appends the calls of `generateAgentID`. -/
theorem resolveAgentID_ext (env : Env) (tr : List Event) :
    ∃ ext, (resolveAgentID env tr).2 = tr ++ ext ∧ ∀ e ∈ ext, e.phase = 1 := by
  unfold resolveAgentID generateAgentID
  split
  · cases env.rand with
    | none => exact ⟨[Event.callGenerateAgentID, Event.randRead false, Event.timeNow], rfl,
        by simp [Event.phase]⟩
    | some b => exact ⟨[Event.callGenerateAgentID, Event.randRead true], rfl,
        by simp [Event.phase]⟩
  · exact ⟨[], by simp, by simp⟩

theorem resolveAgentID_constructCalls (env : Env) (tr : List Event) :
    constructCalls (resolveAgentID env tr).2 = constructCalls tr := by
  obtain ⟨ext, h1, h2⟩ := resolveAgentID_ext env tr
  rw [h1, constructCalls_append]
  suffices h : constructCalls ext = [] by simp [h]
  exact constructCalls_eq_nil_of_phase ext (fun e he => by rw [h2 e he]; decide)

theorem resolveAgentID_startCalls (env : Env) (tr : List Event) :
    startCalls (resolveAgentID env tr).2 = startCalls tr := by
  obtain ⟨ext, h1, h2⟩ := resolveAgentID_ext env tr
  rw [h1, startCalls_append]
  suffices h : startCalls ext = [] by simp [h]
  exact startCalls_eq_nil_of_phase ext (fun e he => by rw [h2 e he]; decide)

theorem resolveAgentID_wiringCalls (env : Env) (tr : List Event) :
    wiringCalls (resolveAgentID env tr).2 = wiringCalls tr := by
  obtain ⟨ext, h1, h2⟩ := resolveAgentID_ext env tr
  rw [h1, wiringCalls_append]
  suffices h : wiringCalls ext = [] by simp [h]
  exact wiringCalls_eq_nil_of_phase ext (fun e he => by rw [h2 e he]; decide)

theorem resolveAgentID_stopCalls (env : Env) (tr : List Event) :
    stopCalls (resolveAgentID env tr).2 = stopCalls tr := by
  obtain ⟨ext, h1, h2⟩ := resolveAgentID_ext env tr
  rw [h1, stopCalls_append]
  suffices h : stopCalls ext = [] by simp [h]
  exact stopCalls_eq_nil_of_phase ext (fun e he => by rw [h2 e he]; decide)

theorem resolveAgentID_mem (env : Env) (tr : List Event) (e : Event) (he : e.phase ≠ 1) :
    e ∈ (resolveAgentID env tr).2 ↔ e ∈ tr := by
  obtain ⟨ext, h1, h2⟩ := resolveAgentID_ext env tr
  rw [h1, List.mem_append]
  constructor
  · rintro (h | h)
    · exact h
    · exact absurd (h2 e h) he
  · exact Or.inl

theorem allOk_iff (f : Stage → Bool) : allOk f = true ↔ ∀ s, f s = true := by
  constructor
  · intro h s
    simp [allOk] at h
    cases s <;> simp [h]
  · intro h
    simp [allOk, h]

/-- The constructor calls of an execution. -/
theorem run_constructCalls (env : Env) :
    constructCalls (run env).trace
      = if env.loggerInit = true ∧ env.configLoad = true
        then untilFirstFailure env.construct startOrder else [] := by
  unfold run
  cases hl : env.loggerInit
  · simp [ret_constructCalls, constructCalls_cons, Event.constructOf, constructCalls_nil]
  cases hc : env.configLoad
  · simp [ret_constructCalls, constructCalls_cons, Event.constructOf, constructCalls_nil]
  unfold runConstruct
  cases h1 : env.construct Stage.collector <;> cases h2 : env.construct Stage.processor <;>
  cases h3 : env.construct Stage.sender <;> cases h4 : env.construct Stage.monitor <;>
  simp [ret_constructCalls, runStarts_constructCalls, constructCalls_append, constructCalls_cons,
    Event.constructOf, constructCalls_nil, resolveAgentID_constructCalls, untilFirstFailure,
    startOrder, h1, h2, h3, h4]

/-- The `Start` calls of an execution. -/
theorem run_startCalls (env : Env) :
    startCalls (run env).trace
      = if env.loggerInit = true ∧ env.configLoad = true ∧ allOk env.construct = true
        then untilFirstFailure env.start startOrder else [] := by
  unfold run
  cases hl : env.loggerInit
  · simp [ret_startCalls, startCalls_cons, Event.startOf, startCalls_nil]
  cases hc : env.configLoad
  · simp [ret_startCalls, startCalls_cons, Event.startOf, startCalls_nil]
  unfold runConstruct
  cases h1 : env.construct Stage.collector <;> cases h2 : env.construct Stage.processor <;>
  cases h3 : env.construct Stage.sender <;> cases h4 : env.construct Stage.monitor <;>
  simp [ret_startCalls, startCalls_append, startCalls_cons,
    Event.startOf, startCalls_nil, resolveAgentID_startCalls, allOk, h1, h2, h3, h4]
  unfold runStarts
  cases s1 : env.start Stage.collector <;> cases s2 : env.start Stage.processor <;>
  cases s3 : env.start Stage.sender <;> cases s4 : env.start Stage.monitor <;>
  simp [ret_startCalls, runWait_startCalls, startCalls_append, startCalls_cons,
    Event.startOf, startCalls_nil, resolveAgentID_startCalls, untilFirstFailure,
    startOrder, s1, s2, s3, s4]

/-- The wiring calls of an execution. -/
theorem run_wiringCalls (env : Env) :
    wiringCalls (run env).trace
      = if env.loggerInit = true ∧ env.configLoad = true ∧ allOk env.construct = true
          ∧ allOk env.start = true
        then wiring else [] := by
  unfold run
  cases hl : env.loggerInit
  · simp [ret_wiringCalls, wiringCalls_cons, Event.isWiring, wiringCalls_nil]
  cases hc : env.configLoad
  · simp [ret_wiringCalls, wiringCalls_cons, Event.isWiring, wiringCalls_nil]
  unfold runConstruct
  cases h1 : env.construct Stage.collector <;> cases h2 : env.construct Stage.processor <;>
  cases h3 : env.construct Stage.sender <;> cases h4 : env.construct Stage.monitor <;>
  simp [ret_wiringCalls, wiringCalls_append, wiringCalls_cons,
    Event.isWiring, wiringCalls_nil, resolveAgentID_wiringCalls, allOk, h1, h2, h3, h4]
  unfold runStarts
  cases s1 : env.start Stage.collector <;> cases s2 : env.start Stage.processor <;>
  cases s3 : env.start Stage.sender <;> cases s4 : env.start Stage.monitor <;>
  simp [ret_wiringCalls, runWait_wiringCalls, wiringCalls_append, wiringCalls_cons,
    Event.isWiring, wiringCalls_nil, resolveAgentID_wiringCalls, s1, s2, s3, s4]

/-! ## Executions in which everything succeeds -/

/-- The whole execution when logger, configuration, constructors and starts
succeed, the `select` fires and every `Stop()` call returns. -/
theorem run_success (env : Env) (w : Wake)
    (hLog : env.loggerInit = true) (hCfg : env.configLoad = true)
    (hCons : ∀ s, env.construct s = true) (hStart : ∀ s, env.start s = true)
    (hWake : env.wake = some w) (hStop : ∀ s n, env.stop s n ≠ StopOutcome.hangs) :
    run env = ⟨(resolveAgentID env [Event.loggerInit true, Event.configLoad true]).2
        ++ startupEvents (resolveAgentID env [Event.loggerInit true, Event.configLoad true]).1
        ++ shutdownEvents w, Outcome.returned none⟩ := by
  simp [run, runConstruct, runStarts, runWait, runStops, ret, runDeferred, callStop, hLog, hCfg,
    hCons, hStart, hWake, hStop, startupEvents, constructedEvents, shutdownEvents, wiring]

theorem stopCalls_startupEvents (agentID : String) : stopCalls (startupEvents agentID) = [] := by
  simp [startupEvents, constructedEvents, wiring, stopCalls, Event.stopOf]

theorem stopCalls_shutdownEvents (w : Wake) :
    stopCalls (shutdownEvents w)
      = [Stage.monitor, Stage.sender, Stage.processor, Stage.collector,
         Stage.monitor, Stage.sender, Stage.processor, Stage.collector] := by
  simp [shutdownEvents, stopCalls, Event.stopOf]

/-! ## Start failure and stop order -/

/-- C1: in an execution that gets as far as the start block (logger,
configuration and the four constructors succeed) and whose `Stop()` calls
return, if the stages before `k` start and `Start` on `k` fails, then the
`Start` calls are exactly those on the stages up to `k` (none after `k`), the
`Stop()` calls are exactly the stages before `k` in the reverse of their start
order, `k` itself is not stopped, and `run` returns the start error of `k`. -/
theorem start_failure_unwinds (env : Env) (k : Stage)
    (hLog : env.loggerInit = true) (hCfg : env.configLoad = true)
    (hCons : ∀ s, env.construct s = true)
    (hPrev : ∀ s ∈ startedBefore k, env.start s = true)
    (hFail : env.start k = false)
    (hStop : ∀ s n, env.stop s n ≠ StopOutcome.hangs) :
    startCalls (run env).trace = (startedBefore k).map (fun s => (s, true)) ++ [(k, false)]
    ∧ stopCalls (run env).trace = (startedBefore k).reverse
    ∧ k ∉ stopCalls (run env).trace
    ∧ (run env).outcome = Outcome.returned (some (RunError.start k)) := by
  cases k <;>
  simp [startedBefore, startOrder] at hPrev ⊢ <;>
  simp [run, runConstruct, runStarts, ret, runDeferred, callStop, hLog, hCfg, hCons, hPrev,
    hFail, hStop, stopCalls_append, startCalls_append, stopCalls_cons, startCalls_cons,
    stopCalls_nil, startCalls_nil, Event.stopOf, Event.startOf, resolveAgentID_stopCalls,
    resolveAgentID_startCalls]

/-- C1, on an execution where `sender.Start` fails: processor then collector
are stopped, the monitor is never started, and `run` returns the error. -/
theorem start_failure_unwinds_witness :
    startCalls (run envSenderStartFails).trace
        = [(Stage.collector, true), (Stage.processor, true), (Stage.sender, false)]
    ∧ stopCalls (run envSenderStartFails).trace = [Stage.processor, Stage.collector]
    ∧ Stage.sender ∉ stopCalls (run envSenderStartFails).trace
    ∧ (run envSenderStartFails).outcome = Outcome.returned (some (RunError.start Stage.sender)) :=
  start_failure_unwinds envSenderStartFails Stage.sender rfl rfl (fun _ => rfl) (by decide) rfl
    (fun _ _ => by simp [envSenderStartFails])

/-- C2, as stated, fails: on an execution where everything succeeds and
SIGTERM arrives, the recorded `Stop()` calls are not the four-element sequence
monitor, sender, processor, collector; every stage is stopped twice. -/
theorem stop_calls_once_counterexample :
    (envOk.loggerInit = true ∧ envOk.configLoad = true
      ∧ (∀ s, envOk.construct s = true) ∧ (∀ s, envOk.start s = true)
      ∧ envOk.wake = some (Wake.signal Sig.sigterm))
    ∧ stopCalls (run envOk).trace
        ≠ [Stage.monitor, Stage.sender, Stage.processor, Stage.collector]
    ∧ stopCalls (run envOk).trace
        = [Stage.monitor, Stage.sender, Stage.processor, Stage.collector,
           Stage.monitor, Stage.sender, Stage.processor, Stage.collector] :=
  ⟨⟨rfl, rfl, fun _ => rfl, fun _ => rfl, rfl⟩, by decide, by decide⟩

/-- C2, amended: when logger, configuration, constructors and starts succeed,
the wait is woken and every `Stop()` call returns, the recorded `Stop()` calls
are monitor, sender, processor, collector twice over (the explicit shutdown
sequence, then the deferred calls), so each stage is stopped exactly twice. -/
theorem stop_calls_reverse_order_twice (env : Env) (w : Wake)
    (hLog : env.loggerInit = true) (hCfg : env.configLoad = true)
    (hCons : ∀ s, env.construct s = true) (hStart : ∀ s, env.start s = true)
    (hWake : env.wake = some w) (hStop : ∀ s n, env.stop s n ≠ StopOutcome.hangs) :
    stopCalls (run env).trace
      = startOrder.reverse ++ startOrder.reverse
    ∧ ∀ s, (stopCalls (run env).trace).count s = 2 := by
  rw [run_success env w hLog hCfg hCons hStart hWake hStop]
  simp only [stopCalls_append, resolveAgentID_stopCalls, stopCalls_startupEvents,
    stopCalls_shutdownEvents]
  refine ⟨by simp [stopCalls, Event.stopOf, startOrder], ?_⟩
  intro s
  cases s <;> simp [stopCalls, Event.stopOf]

/-- C2, amended, on an execution woken by cancellation of the run context. -/
theorem stop_calls_reverse_order_twice_witness :
    stopCalls (run ⟨"a", true, true, none, 0, fun _ => true, fun _ => true,
        fun _ _ => StopOutcome.ok, some Wake.ctxDone⟩).trace
      = startOrder.reverse ++ startOrder.reverse :=
  (stop_calls_reverse_order_twice ⟨"a", true, true, none, 0, fun _ => true, fun _ => true,
    fun _ _ => StopOutcome.ok, some Wake.ctxDone⟩ Wake.ctxDone rfl rfl (fun _ => rfl)
    (fun _ => rfl) rfl (fun _ _ => by simp)).1

/-! ## Construction and wiring -/

/-- After successful construction `run` continues with the start block. -/
theorem run_eq_runStarts (env : Env)
    (hLog : env.loggerInit = true) (hCfg : env.configLoad = true)
    (hCons : allOk env.construct = true) :
    run env = runStarts env
      ((resolveAgentID env [Event.loggerInit true, Event.configLoad true]).2
        ++ constructedEvents (resolveAgentID env [Event.loggerInit true, Event.configLoad true]).1)
      [Deferred.cancel] := by
  simp only [allOk, Bool.and_eq_true] at hCons
  simp [run, runConstruct, hLog, hCfg, hCons, constructedEvents]

/-- After four successful starts `run` continues with the wiring. -/
theorem runStarts_eq_runWait (env : Env) (tr : List Event) (ds : List Deferred)
    (hStart : allOk env.start = true) :
    runStarts env tr ds = runWait env
      (tr ++ [Event.start Stage.collector true, Event.start Stage.processor true,
        Event.start Stage.sender true, Event.start Stage.monitor true])
      (Deferred.stop Stage.monitor :: Deferred.stop Stage.sender :: Deferred.stop Stage.processor
        :: Deferred.stop Stage.collector :: ds) := by
  simp only [allOk, Bool.and_eq_true] at hStart
  simp [runStarts, hStart]

theorem resolveAgentID_phase (env : Env) :
    ∀ x ∈ (resolveAgentID env [Event.loggerInit true, Event.configLoad true]).2, x.phase ≤ 1 := by
  obtain ⟨ext, h1, h2⟩ := resolveAgentID_ext env [Event.loggerInit true, Event.configLoad true]
  intro x hx
  rw [h1] at hx
  rcases List.mem_append.mp hx with hx | hx
  · simp only [List.mem_cons, List.mem_singleton, List.not_mem_nil, or_false] at hx
    rcases hx with rfl | rfl <;> simp [Event.phase]
  · rw [h2 x hx]

theorem constructedEvents_phase (agentID : String) :
    ∀ x ∈ constructedEvents agentID, x.phase ≤ 3 := by
  simp [constructedEvents, Event.phase]

theorem untilFirstFailure_all_true (f : Stage → Bool) :
    (∀ s, (s, true) ∈ untilFirstFailure f startOrder) ↔ allOk f = true := by
  constructor
  · intro h
    have h1 := h Stage.collector
    have h2 := h Stage.processor
    have h3 := h Stage.sender
    have h4 := h Stage.monitor
    revert h1 h2 h3 h4
    cases c1 : f Stage.collector <;> cases c2 : f Stage.processor <;>
      cases c3 : f Stage.sender <;> cases c4 : f Stage.monitor <;>
      simp [untilFirstFailure, startOrder, allOk, c1, c2, c3, c4]
  · intro h s
    simp only [allOk, Bool.and_eq_true] at h
    cases s <;> simp [untilFirstFailure, startOrder, h]

theorem untilFirstFailure_has_false (f : Stage → Bool) (s : Stage)
    (h : (s, false) ∈ untilFirstFailure f startOrder) : allOk f = false := by
  revert h
  cases h1 : f Stage.collector <;> cases h2 : f Stage.processor <;> cases h3 : f Stage.sender <;>
    cases h4 : f Stage.monitor <;> simp [untilFirstFailure, startOrder, allOk, h1, h2, h3, h4]

/-- A failing constructor makes `run` return an error without any `Stop()`
call. -/
theorem run_construct_failure (env : Env) (h : allOk env.construct = false) :
    (∃ e, (run env).outcome = Outcome.returned (some e)) ∧ stopCalls (run env).trace = [] := by
  unfold run
  cases hl : env.loggerInit
  · simp [ret, runDeferred, stopCalls, Event.stopOf]
  cases hc : env.configLoad
  · simp [ret, runDeferred, stopCalls, Event.stopOf]
  unfold runConstruct
  revert h
  cases h1 : env.construct Stage.collector <;> cases h2 : env.construct Stage.processor <;>
  cases h3 : env.construct Stage.sender <;> cases h4 : env.construct Stage.monitor <;>
  simp [allOk, h1, h2, h3, h4, ret, runDeferred, stopCalls_append, stopCalls_cons, stopCalls_nil,
    Event.stopOf, resolveAgentID_stopCalls]

/-- C3: the constructor calls are made in the order collector, processor,
sender, monitor and end at the first failure (none is made when the logger or
the configuration fails first); if any constructor fails, `run` returns an
error and makes no `Start`, `Stop()` or wiring call; and every `Start` call
comes after four successful constructor calls. -/
theorem construction_failure_aborts (env : Env) :
    constructCalls (run env).trace
      = (if env.loggerInit = true ∧ env.configLoad = true
         then untilFirstFailure env.construct startOrder else [])
    ∧ ((∃ s, env.construct s = false) →
        (∃ e, (run env).outcome = Outcome.returned (some e))
        ∧ startCalls (run env).trace = [] ∧ stopCalls (run env).trace = []
        ∧ wiringCalls (run env).trace = [])
    ∧ (∀ pre post s ok, (run env).trace = pre ++ Event.start s ok :: post →
        constructCalls pre = startOrder.map (fun s => (s, true))) := by
  refine ⟨run_constructCalls env, ?_, ?_⟩
  · rintro ⟨s, hs⟩
    have hno : allOk env.construct = false := by
      cases h : allOk env.construct
      · rfl
      · rw [(allOk_iff env.construct).mp h s] at hs
        exact absurd hs (by decide)
    obtain ⟨he, hst⟩ := run_construct_failure env hno
    refine ⟨he, ?_, hst, ?_⟩
    · rw [run_startCalls]; simp [hno]
    · rw [run_wiringCalls]; simp [hno]
  · intro pre post s ok h
    have hsc : startCalls (run env).trace ≠ [] := by
      rw [h]; simp [startCalls_append, startCalls_cons, Event.startOf]
    rw [run_startCalls] at hsc
    split at hsc
    · rename_i hA
      obtain ⟨hLog, hCfg, hCons⟩ := hA
      rw [run_eq_runStarts env hLog hCfg hCons] at h
      obtain ⟨a, ha1, ha2⟩ := (runStarts_ext env _ _).split h (by
        intro x hx
        rcases List.mem_append.mp hx with hx | hx
        · have := resolveAgentID_phase env x hx
          show x.phase < 4
          omega
        · have := constructedEvents_phase _ x hx
          show x.phase < 4
          omega)
      rw [ha1, constructCalls_append, constructCalls_append, resolveAgentID_constructCalls,
        constructCalls_eq_nil_of_phase a (fun e he => by have := ha2 e he; omega)]
      simp [constructedEvents, constructCalls, Event.constructOf, startOrder]
    · exact absurd rfl hsc

/-- C3, on an execution where `sender.New` fails: the monitor is not
constructed, `run` returns an error, nothing is started, stopped or wired. -/
theorem construction_failure_aborts_witness :
    constructCalls (run envSenderNewFails).trace
      = [(Stage.collector, true), (Stage.processor, true), (Stage.sender, false)]
    ∧ (∃ e, (run envSenderNewFails).outcome = Outcome.returned (some e))
    ∧ startCalls (run envSenderNewFails).trace = []
    ∧ stopCalls (run envSenderNewFails).trace = []
    ∧ wiringCalls (run envSenderNewFails).trace = [] :=
  have h := construction_failure_aborts envSenderNewFails
  ⟨h.1.trans (by decide), h.2.1 ⟨Stage.sender, by decide⟩⟩

/-- C4: the wiring calls of an execution are either none or the two wiring
statements once each, collector to processor first; they are made exactly when
all four `Start` calls returned successfully, and then they come right after
the fourth `Start` call and before the `select`; an execution with a failed
constructor or a failed `Start` makes no wiring call. -/
theorem wiring_once_after_all_starts (env : Env) :
    (wiringCalls (run env).trace = wiring ∨ wiringCalls (run env).trace = [])
    ∧ (wiringCalls (run env).trace = wiring ↔ ∀ s, (s, true) ∈ startCalls (run env).trace)
    ∧ ((∀ s, (s, true) ∈ startCalls (run env).trace) →
        ∃ pre post, (run env).trace
            = pre ++ [Event.start Stage.monitor true] ++ wiring
              ++ [Event.log LogLine.started, Event.signalNotify, Event.selectWait] ++ post
          ∧ startCalls pre
              = [(Stage.collector, true), (Stage.processor, true), (Stage.sender, true)]
          ∧ wiringCalls pre = [] ∧ Event.selectWait ∉ pre
          ∧ startCalls post = [] ∧ wiringCalls post = [] ∧ Event.selectWait ∉ post)
    ∧ ((∃ s, (s, false) ∈ constructCalls (run env).trace ∨ (s, false) ∈ startCalls (run env).trace)
        → wiringCalls (run env).trace = []) := by
  have hall : (∀ s, (s, true) ∈ startCalls (run env).trace) ↔
      (env.loggerInit = true ∧ env.configLoad = true ∧ allOk env.construct = true
        ∧ allOk env.start = true) := by
    rw [run_startCalls]
    split
    · rename_i hA
      rw [untilFirstFailure_all_true]
      exact ⟨fun h => ⟨hA.1, hA.2.1, hA.2.2, h⟩, fun h => h.2.2.2⟩
    · rename_i hA
      constructor
      · intro h
        exact absurd (h Stage.collector) (List.not_mem_nil _)
      · intro h
        exact absurd ⟨h.1, h.2.1, h.2.2.1⟩ hA
  refine ⟨?_, ?_, ?_, ?_⟩
  · rw [run_wiringCalls]
    split
    · exact Or.inl rfl
    · exact Or.inr rfl
  · rw [hall, run_wiringCalls]
    split
    · rename_i hA
      exact ⟨fun _ => hA, fun _ => rfl⟩
    · rename_i hA
      exact ⟨fun h => absurd h (by simp [wiring]), fun h => absurd h hA⟩
  · intro h
    obtain ⟨hLog, hCfg, hCons, hStart⟩ := hall.mp h
    rw [run_eq_runStarts env hLog hCfg hCons, runStarts_eq_runWait env _ _ hStart]
    obtain ⟨post, hp1, hp2⟩ := runWait_ext env
      ((resolveAgentID env [Event.loggerInit true, Event.configLoad true]).2
        ++ constructedEvents (resolveAgentID env [Event.loggerInit true, Event.configLoad true]).1
        ++ [Event.start Stage.collector true, Event.start Stage.processor true,
          Event.start Stage.sender true, Event.start Stage.monitor true])
      (Deferred.stop Stage.monitor :: Deferred.stop Stage.sender :: Deferred.stop Stage.processor
        :: Deferred.stop Stage.collector :: [Deferred.cancel])
    refine ⟨(resolveAgentID env [Event.loggerInit true, Event.configLoad true]).2
        ++ constructedEvents (resolveAgentID env [Event.loggerInit true, Event.configLoad true]).1
        ++ [Event.start Stage.collector true, Event.start Stage.processor true,
          Event.start Stage.sender true], post, ?_, ?_, ?_, ?_, ?_, ?_, ?_⟩
    · rw [hp1]; simp
    · simp [startCalls_append, resolveAgentID_startCalls, constructedEvents, startCalls_cons,
        startCalls_nil, Event.startOf]
    · simp [wiringCalls_append, resolveAgentID_wiringCalls, constructedEvents, wiringCalls_cons,
        wiringCalls_nil, Event.isWiring]
    · intro hm
      rcases List.mem_append.mp hm with hm | hm
      · rcases List.mem_append.mp hm with hm | hm
        · have := resolveAgentID_phase env _ hm
          simp [Event.phase] at this
        · have := constructedEvents_phase _ _ hm
          simp [Event.phase] at this
      · simp at hm
    · exact startCalls_eq_nil_of_phase post (fun e he => by have := hp2 e he; omega)
    · exact wiringCalls_eq_nil_of_phase post (fun e he => by have := hp2 e he; omega)
    · intro hm
      have := hp2 _ hm
      simp [Event.phase] at this
  · rintro ⟨s, hs | hs⟩
    · rw [run_constructCalls] at hs
      split at hs
      · have := untilFirstFailure_has_false _ _ hs
        rw [run_wiringCalls]; simp [this]
      · exact absurd hs (List.not_mem_nil _)
    · rw [run_startCalls] at hs
      split at hs
      · have := untilFirstFailure_has_false _ _ hs
        rw [run_wiringCalls]; simp [this]
      · exact absurd hs (List.not_mem_nil _)

/-- C4, on an execution where `sender.Start` fails (no wiring) and on one
where everything succeeds (both wiring statements, once each). -/
theorem wiring_once_after_all_starts_witness :
    wiringCalls (run envSenderStartFails).trace = []
    ∧ wiringCalls (run envOk).trace = wiring :=
  ⟨(wiring_once_after_all_starts envSenderStartFails).2.2.2 ⟨Stage.sender, Or.inr (by decide)⟩,
   (wiring_once_after_all_starts envOk).2.1.mpr (fun s => by cases s <;> decide)⟩

theorem resolveAgentID_withStop (env : Env) (f : Stage → Nat → StopOutcome) (tr : List Event) :
    resolveAgentID (env.withStop f) tr = resolveAgentID env tr := rfl

/-- A list that ends with its only occurrence of `c` can be cut before a `c`
in one way only. -/
theorem split_at_last {α : Type} (L a b : List α) (c : α) (hc : c ∉ L)
    (h : L ++ [c] = a ++ c :: b) : a = L ∧ b = [] := by
  induction L generalizing a with
  | nil =>
    cases a with
    | nil => simpa using h.symm
    | cons x a =>
      simp only [List.nil_append, List.cons_append, List.cons.injEq] at h
      exact absurd h.2.symm (by simp)
  | cons y L ih =>
    cases a with
    | nil =>
      simp only [List.cons_append, List.nil_append, List.cons.injEq] at h
      exact absurd h.1 (fun hy => hc (by simp [hy]))
    | cons x a =>
      simp only [List.cons_append, List.cons.injEq] at h
      obtain ⟨h1, h2⟩ := ih a (fun hm => hc (List.mem_cons_of_mem _ hm)) h.2
      exact ⟨by rw [h.1, h1], h2⟩

theorem startupEvents_phase (agentID : String) :
    ∀ x ∈ startupEvents agentID, x.phase ≤ 6 := by
  simp [startupEvents, constructedEvents, wiring, Event.phase]

/-- C5: when logger, configuration, constructors and starts succeed and the
wait is woken, then for any two assignments of results (error or nil) to the
`Stop()` calls the executions are the same: after the wake come the explicit
`Stop()` calls on monitor, sender, processor, collector, then the deferred
`Stop()` calls on the same four stages, none skipped, and `run` returns nil. -/
theorem stop_errors_do_not_change_shutdown (env : Env) (w : Wake)
    (f g : Stage → Nat → StopOutcome)
    (hLog : env.loggerInit = true) (hCfg : env.configLoad = true)
    (hCons : ∀ s, env.construct s = true) (hStart : ∀ s, env.start s = true)
    (hWake : env.wake = some w)
    (hf : ∀ s n, f s n ≠ StopOutcome.hangs) (hg : ∀ s n, g s n ≠ StopOutcome.hangs) :
    run (env.withStop f) = run (env.withStop g)
    ∧ (∃ pre, (run (env.withStop f)).trace = pre ++ shutdownEvents w
        ∧ stopCalls pre = [] ∧ Event.wake w ∉ pre)
    ∧ stopCalls (run (env.withStop f)).trace
        = [Stage.monitor, Stage.sender, Stage.processor, Stage.collector,
           Stage.monitor, Stage.sender, Stage.processor, Stage.collector]
    ∧ (run (env.withStop f)).outcome = Outcome.returned none := by
  have hF := run_success (env.withStop f) w hLog hCfg hCons hStart hWake hf
  have hG := run_success (env.withStop g) w hLog hCfg hCons hStart hWake hg
  rw [resolveAgentID_withStop] at hF hG
  refine ⟨hF.trans hG.symm, ⟨_, by rw [hF], ?_, ?_⟩, ?_, by rw [hF]⟩
  · simp [stopCalls_append, resolveAgentID_stopCalls, stopCalls_startupEvents, stopCalls_cons,
      stopCalls_nil, Event.stopOf]
  · intro hm
    rcases List.mem_append.mp hm with hm | hm
    · have := resolveAgentID_phase env _ hm
      simp [Event.phase] at this
    · have := startupEvents_phase _ _ hm
      simp [Event.phase] at this
  · rw [hF]
    simp [stopCalls_append, resolveAgentID_stopCalls, stopCalls_startupEvents,
      stopCalls_shutdownEvents, stopCalls_cons, stopCalls_nil, Event.stopOf]

/-- C5, on an execution woken by SIGTERM: the `Stop()` calls all failing and
the `Stop()` calls all succeeding give the same execution. -/
theorem stop_errors_do_not_change_shutdown_witness :
    run (envOk.withStop (fun _ _ => StopOutcome.err))
      = run (envOk.withStop (fun _ _ => StopOutcome.ok))
    ∧ (run (envOk.withStop (fun _ _ => StopOutcome.err))).outcome = Outcome.returned none :=
  have h := stop_errors_do_not_change_shutdown envOk (Wake.signal Sig.sigterm)
    (fun _ _ => StopOutcome.err) (fun _ _ => StopOutcome.ok) rfl rfl (fun _ => rfl) (fun _ => rfl)
    rfl (fun _ _ => by simp) (fun _ _ => by simp)
  ⟨h.1, h.2.2.2⟩

/-- C6: where the first `Stop()` call on the monitor never returns, `run`
never returns either: it stays blocked in that call, which is the last event,
and no other stage is stopped. -/
theorem shutdown_blocks_in_monitor_stop :
    (run envMonitorStopHangs).outcome = Outcome.blockedInStop Stage.monitor
    ∧ stopCalls (run envMonitorStopHangs).trace = [Stage.monitor]
    ∧ (run envMonitorStopHangs).trace.getLast? = some (Event.stop Stage.monitor)
    ∧ Event.shutdownCtxWithTimeout 30 ∈ (run envMonitorStopHangs).trace := by
  decide

/-- C10, as stated, fails: on an execution where everything succeeds and
SIGTERM arrives, the run context is cancelled by the last event of the
execution, at position 35, after the first `Stop()` call (position 25) and
after all eight `Stop()` calls. -/
theorem cancel_before_stops_counterexample :
    (run envOk).trace.indexOf (Event.wake (Wake.signal Sig.sigterm)) = 21
    ∧ (run envOk).trace.indexOf (Event.stop Stage.monitor) = 25
    ∧ (run envOk).trace.indexOf Event.cancel = 35
    ∧ (run envOk).trace.length = 36
    ∧ ¬ ((run envOk).trace.indexOf Event.cancel
          < (run envOk).trace.indexOf (Event.stop Stage.monitor))
    ∧ stopCalls ((run envOk).trace.take 35)
        = [Stage.monitor, Stage.sender, Stage.processor, Stage.collector,
           Stage.monitor, Stage.sender, Stage.processor, Stage.collector] := by
  decide

/-- C10, amended: when logger, configuration, constructors and starts
succeed, a termination signal arrives and every `Stop()` call returns, the run
context is cancelled once, by the deferred `cancel()`: it is the last event of
the execution, after the wake and after all eight `Stop()` calls. -/
theorem run_context_cancelled_last (env : Env) (sig : Sig)
    (hLog : env.loggerInit = true) (hCfg : env.configLoad = true)
    (hCons : ∀ s, env.construct s = true) (hStart : ∀ s, env.start s = true)
    (hWake : env.wake = some (Wake.signal sig))
    (hStop : ∀ s n, env.stop s n ≠ StopOutcome.hangs) :
    Event.cancel ∈ (run env).trace
    ∧ ∀ a b, (run env).trace = a ++ Event.cancel :: b →
        b = [] ∧ Event.wake (Wake.signal sig) ∈ a
        ∧ stopCalls a = [Stage.monitor, Stage.sender, Stage.processor, Stage.collector,
            Stage.monitor, Stage.sender, Stage.processor, Stage.collector] := by
  have hR := run_success env (Wake.signal sig) hLog hCfg hCons hStart hWake hStop
  have hT : (run env).trace
      = ((resolveAgentID env [Event.loggerInit true, Event.configLoad true]).2
        ++ startupEvents (resolveAgentID env [Event.loggerInit true, Event.configLoad true]).1
        ++ (shutdownEvents (Wake.signal sig)).dropLast) ++ [Event.cancel] := by
    rw [hR]; simp [shutdownEvents]
  refine ⟨by rw [hT]; simp, ?_⟩
  intro a b hab
  rw [hT] at hab
  have hnot : Event.cancel ∉ (resolveAgentID env [Event.loggerInit true, Event.configLoad true]).2
        ++ startupEvents (resolveAgentID env [Event.loggerInit true, Event.configLoad true]).1
        ++ (shutdownEvents (Wake.signal sig)).dropLast := by
    intro hm
    rcases List.mem_append.mp hm with hm | hm
    · rcases List.mem_append.mp hm with hm | hm
      · have := resolveAgentID_phase env _ hm
        simp [Event.phase] at this
      · have := startupEvents_phase _ _ hm
        simp [Event.phase] at this
    · simp [shutdownEvents] at hm
  obtain ⟨ha, hb⟩ := split_at_last _ a b Event.cancel hnot hab
  refine ⟨hb, ?_, ?_⟩
  · rw [ha]; simp [shutdownEvents]
  · rw [ha]
    simp [stopCalls_append, resolveAgentID_stopCalls, stopCalls_startupEvents, shutdownEvents,
      stopCalls_cons, stopCalls_nil, Event.stopOf]

/-- C10, amended, on an execution woken by SIGTERM. -/
theorem run_context_cancelled_last_witness : Event.cancel ∈ (run envOk).trace :=
  (run_context_cancelled_last envOk Sig.sigterm rfl rfl (fun _ => rfl) (fun _ => rfl) rfl
    (fun _ _ => by simp [envOk])).1


/-! ## Identity resolution -/

/-- The construction block only appends constructor calls and events of
later blocks after the creation of the run context. -/
theorem runConstruct_ext (env : Env) (agentID : String) (tr : List Event) :
    Extends 3 (tr ++ [Event.ctxWithCancel]) (runConstruct env agentID tr).trace := by
  unfold runConstruct
  simp only []
  split
  · exact Extends.of_append (Extends.mono (by decide) (ret_ext _ _ _ _)) (by simp [Event.phase])
  split
  · exact Extends.of_append (Extends.of_append (Extends.mono (by decide) (ret_ext _ _ _ _))
      (by simp [Event.phase])) (by simp [Event.phase])
  split
  · exact Extends.of_append (Extends.of_append (Extends.of_append
      (Extends.mono (by decide) (ret_ext _ _ _ _))
      (by simp [Event.phase])) (by simp [Event.phase])) (by simp [Event.phase])
  split
  · exact Extends.of_append (Extends.of_append (Extends.of_append (Extends.of_append
      (Extends.mono (by decide) (ret_ext _ _ _ _))
      (by simp [Event.phase])) (by simp [Event.phase])) (by simp [Event.phase]))
      (by simp [Event.phase])
  · exact Extends.of_append (Extends.of_append (Extends.of_append (Extends.of_append
      (Extends.mono (by decide) (runStarts_ext _ _ _))
      (by simp [Event.phase])) (by simp [Event.phase])) (by simp [Event.phase]))
      (by simp [Event.phase])

theorem run_eq_runConstruct (env : Env)
    (hLog : env.loggerInit = true) (hCfg : env.configLoad = true) :
    run env = runConstruct env
      (resolveAgentID env [Event.loggerInit true, Event.configLoad true]).1
      ((resolveAgentID env [Event.loggerInit true, Event.configLoad true]).2
        ++ [Event.log (LogLine.starting
          (resolveAgentID env [Event.loggerInit true, Event.configLoad true]).1)]) := by
  simp [run, hLog, hCfg]

/-- Events of the blocks before the constructors are those of the identity
resolution, the first log line and the creation of the run context. -/
theorem run_mem_early (env : Env)
    (hLog : env.loggerInit = true) (hCfg : env.configLoad = true) (e : Event)
    (he : e.phase < 3) :
    e ∈ (run env).trace ↔
      e ∈ (resolveAgentID env [Event.loggerInit true, Event.configLoad true]).2
        ++ [Event.log (LogLine.starting
          (resolveAgentID env [Event.loggerInit true, Event.configLoad true]).1)]
        ++ [Event.ctxWithCancel] := by
  rw [run_eq_runConstruct env hLog hCfg]
  exact (runConstruct_ext env _ _).mem_iff e he

/-- The constructor calls on the sender carry the agent id. -/
theorem runConstruct_sender (env : Env) (agentID : String) (tr : List Event)
    (htr : ∀ x ∈ tr, x.phase < 3) :
    (∀ x ok, Event.construct Stage.sender x ok ∈ (runConstruct env agentID tr).trace →
      x = some agentID)
    ∧ (env.construct Stage.collector = true → env.construct Stage.processor = true →
        Event.construct Stage.sender (some agentID) (env.construct Stage.sender)
          ∈ (runConstruct env agentID tr).trace) := by
  have hno : ∀ x ok, Event.construct Stage.sender x ok ∉ tr := by
    intro x ok hm
    have := htr _ hm
    simp [Event.phase] at this
  unfold runConstruct
  cases h1 : env.construct Stage.collector <;> cases h2 : env.construct Stage.processor <;>
  cases h3 : env.construct Stage.sender <;> cases h4 : env.construct Stage.monitor <;>
  simp [ret_mem, runStarts_mem, Event.phase, hno]

theorem resolveAgentID_of_nonempty (env : Env) (tr : List Event) (h : env.agentID ≠ "") :
    resolveAgentID env tr = (env.agentID, tr) := by
  simp [resolveAgentID, h]

/-- C9: in an execution that reaches the identity resolution (logger and
configuration succeed): when the `agent-id` flag is a non-empty string, that
string is the agent id logged and the one passed to `sender.New`, and neither
`generateAgentID` nor the random source nor the clock is called; and
`generateAgentID` is called exactly when the flag is the empty string. -/
theorem explicit_agent_id_used_verbatim (env : Env)
    (hLog : env.loggerInit = true) (hCfg : env.configLoad = true) :
    (env.agentID ≠ "" →
        Event.log (LogLine.starting env.agentID) ∈ (run env).trace
      ∧ (∀ x, Event.log (LogLine.starting x) ∈ (run env).trace → x = env.agentID)
      ∧ (∀ x ok, Event.construct Stage.sender x ok ∈ (run env).trace → x = some env.agentID)
      ∧ (env.construct Stage.collector = true → env.construct Stage.processor = true →
          Event.construct Stage.sender (some env.agentID) (env.construct Stage.sender)
            ∈ (run env).trace)
      ∧ Event.callGenerateAgentID ∉ (run env).trace
      ∧ (∀ ok, Event.randRead ok ∉ (run env).trace)
      ∧ Event.timeNow ∉ (run env).trace)
    ∧ (Event.callGenerateAgentID ∈ (run env).trace ↔ env.agentID = "") := by
  constructor
  · intro hne
    have hS := runConstruct_sender env env.agentID
      ([Event.loggerInit true, Event.configLoad true]
        ++ [Event.log (LogLine.starting env.agentID)]) (by simp [Event.phase])
    have hE := run_eq_runConstruct env hLog hCfg
    rw [resolveAgentID_of_nonempty env _ hne] at hE
    refine ⟨?_, ?_, ?_, ?_, ?_, ?_, ?_⟩
    · rw [run_mem_early env hLog hCfg _ (by simp [Event.phase]),
        resolveAgentID_of_nonempty env _ hne]
      simp
    · intro x hx
      rw [run_mem_early env hLog hCfg _ (by simp [Event.phase]),
        resolveAgentID_of_nonempty env _ hne] at hx
      simpa using hx
    · rw [hE]; exact hS.1
    · rw [hE]; exact hS.2
    · rw [run_mem_early env hLog hCfg _ (by simp [Event.phase]),
        resolveAgentID_of_nonempty env _ hne]
      simp
    · intro ok
      rw [run_mem_early env hLog hCfg _ (by simp [Event.phase]),
        resolveAgentID_of_nonempty env _ hne]
      simp
    · rw [run_mem_early env hLog hCfg _ (by simp [Event.phase]),
        resolveAgentID_of_nonempty env _ hne]
      simp
  · rw [run_mem_early env hLog hCfg _ (by simp [Event.phase])]
    by_cases hid : env.agentID = ""
    · simp [resolveAgentID, hid]
    · simp [resolveAgentID, hid]

/-- C9, on an execution with the flag `agent-42`: `sender.New` receives
`agent-42` and `generateAgentID` is not called. -/
theorem explicit_agent_id_used_verbatim_witness :
    Event.construct Stage.sender (some "agent-42") true ∈ (run envSenderStartFails).trace
    ∧ Event.callGenerateAgentID ∉ (run envSenderStartFails).trace :=
  have h := (explicit_agent_id_used_verbatim envSenderStartFails rfl rfl).1 (by decide)
  ⟨h.2.2.2.1 rfl rfl, h.2.2.2.2.1⟩

/-! ## `generateAgentID` -/

theorem hexEncode_length (l : List Byte) : (hexEncode l).length = 2 * l.length := by
  induction l with
  | nil => rfl
  | cons v rest ih => simp [hexEncode, ih]; omega

theorem hexEncode_getElem? (l : List Byte) (i : Nat) (h : i < l.length) :
    (hexEncode l)[2 * i]? = some (hexChar ((l.get ⟨i, h⟩).val >>> 4))
    ∧ (hexEncode l)[2 * i + 1]? = some (hexChar ((l.get ⟨i, h⟩).val &&& 0x0f)) := by
  induction l generalizing i with
  | nil => simp at h
  | cons v rest ih =>
    cases i with
    | zero => simp [hexEncode]
    | succ j =>
      have hj : j < rest.length := by simpa using h
      have := ih j hj
      have e1 : 2 * (j + 1) = (2 * j) + 1 + 1 := by omega
      have e2 : 2 * (j + 1) + 1 = (2 * j + 1) + 1 + 1 := by omega
      simp only [hexEncode, e1, e2, List.getElem?_cons_succ, List.get_cons_succ]
      simpa using this

theorem hexChar_eq_nibbleChar (n : Nat) (h : n < 16) : hexChar n = nibbleChar n := by
  interval_cases n <;> decide

theorem isLowerHex_hexChar (n : Nat) (h : n < 16) : isLowerHex (hexChar n) = true := by
  interval_cases n <;> decide

theorem byte_high_nibble (v : Byte) : v.val >>> 4 = v.val / 16 := by
  rw [Nat.shiftRight_eq_div_pow]

theorem byte_low_nibble (v : Byte) : v.val &&& 0x0f = v.val % 16 := by
  have := Nat.and_pow_two_sub_one_eq_mod v.val 4
  simpa using this

theorem isLowerHex_hexEncode (l : List Byte) : ∀ c ∈ hexEncode l, isLowerHex c = true := by
  induction l with
  | nil => simp [hexEncode]
  | cons v rest ih =>
    intro c hc
    simp only [hexEncode, List.mem_cons] at hc
    rcases hc with rfl | rfl | hc
    · exact isLowerHex_hexChar _ (by rw [byte_high_nibble]; have := v.isLt; omega)
    · exact isLowerHex_hexChar _ (by rw [byte_low_nibble]; omega)
    · exact ih c hc

/-- C7: when the random source fills the 16-byte buffer with `b`,
`generateAgentID` returns the hex encoding of `b`: 32 characters, each one of
`0`-`9`, `a`-`f`, the characters at positions `2i` and `2i+1` being the digits
of the high and the low nibble of byte `i`; the clock reading has no effect
and the clock is not read. -/
theorem generateAgentID_hex (b : Fin 16 → Byte) (now : Int) :
    (generateAgentID (some b) now).1 = EncodeToString (List.ofFn b)
    ∧ (generateAgentID (some b) now).1.length = 32
    ∧ (∀ c ∈ (generateAgentID (some b) now).1.data, isLowerHex c = true)
    ∧ (∀ i : Fin 16,
        (generateAgentID (some b) now).1.data[2 * i.val]? = some (nibbleChar ((b i).val / 16))
        ∧ (generateAgentID (some b) now).1.data[2 * i.val + 1]?
            = some (nibbleChar ((b i).val % 16)))
    ∧ (∀ now2, generateAgentID (some b) now2 = generateAgentID (some b) now)
    ∧ Event.timeNow ∉ (generateAgentID (some b) now).2 := by
  refine ⟨rfl, ?_, ?_, ?_, fun _ => rfl, by simp [generateAgentID]⟩
  · simp [generateAgentID, EncodeToString, String.length, hexEncode_length]
  · intro c hc
    exact isLowerHex_hexEncode (List.ofFn b) c (by simpa [generateAgentID, EncodeToString] using hc)
  · intro i
    have hi : i.val < (List.ofFn b).length := by simp
    have h := hexEncode_getElem? (List.ofFn b) i.val hi
    have hb : (List.ofFn b).get ⟨i.val, hi⟩ = b i := by
      rw [List.get_ofFn]
      exact congrArg b (Fin.ext rfl)
    rw [hb, byte_high_nibble, byte_low_nibble] at h
    rw [hexChar_eq_nibbleChar _ (by have := (b i).isLt; omega),
      hexChar_eq_nibbleChar _ (by omega)] at h
    simpa [generateAgentID, EncodeToString] using h

theorem digitChar_isDigit (m : Nat) (h : m < 10) : (Nat.digitChar m).isDigit = true := by
  interval_cases m <;> decide

theorem digitChar_value (m : Nat) (h : m < 10) : (Nat.digitChar m).toNat - 48 = m := by
  interval_cases m <;> decide

theorem toDigitsCore_isDigit (fuel n : Nat) (ds : List Char)
    (hds : ∀ c ∈ ds, c.isDigit = true) :
    ∀ c ∈ Nat.toDigitsCore 10 fuel n ds, c.isDigit = true := by
  induction fuel generalizing n ds with
  | zero => simpa [Nat.toDigitsCore] using hds
  | succ fuel ih =>
    have hd : ∀ c ∈ Nat.digitChar (n % 10) :: ds, c.isDigit = true := by
      intro c hc
      rcases List.mem_cons.mp hc with rfl | hc
      · exact digitChar_isDigit _ (Nat.mod_lt _ (by decide))
      · exact hds c hc
    simp only [Nat.toDigitsCore]
    split
    · exact hd
    · exact ih _ _ hd

theorem toDigitsCore_ne_nil (fuel n : Nat) (ds : List Char) (h : ds ≠ [] ∨ 0 < fuel) :
    Nat.toDigitsCore 10 fuel n ds ≠ [] := by
  induction fuel generalizing n ds with
  | zero =>
    rcases h with h | h
    · simpa [Nat.toDigitsCore] using h
    · exact absurd h (Nat.lt_irrefl 0)
  | succ fuel ih =>
    simp only [Nat.toDigitsCore]
    split
    · simp
    · exact ih _ _ (Or.inl (by simp))

theorem decimalValue_foldl (ds : List Char) (a : Nat) :
    ds.foldl (fun acc c => 10 * acc + (c.toNat - 48)) a
      = a * 10 ^ ds.length + decimalValue ds := by
  induction ds generalizing a with
  | nil => simp [decimalValue]
  | cons c rest ih =>
    simp only [List.foldl_cons, decimalValue, List.length_cons]
    rw [ih, ih (10 * 0 + (c.toNat - 48))]
    ring

theorem toDigitsCore_value (fuel n : Nat) (ds : List Char) (h : n < fuel) :
    (Nat.toDigitsCore 10 fuel n ds).foldl (fun acc c => 10 * acc + (c.toNat - 48)) 0
      = n * 10 ^ ds.length + decimalValue ds := by
  induction fuel generalizing n ds with
  | zero => exact absurd h (Nat.not_lt_zero _)
  | succ fuel ih =>
    simp only [Nat.toDigitsCore]
    split
    · rename_i h0
      have hn : n % 10 = n := by omega
      rw [List.foldl_cons, decimalValue_foldl, digitChar_value _ (Nat.mod_lt _ (by decide)), hn]
      simp
    · rename_i h0
      have hlt : n / 10 < fuel := by omega
      rw [ih (n / 10) _ hlt]
      have hv : decimalValue (Nat.digitChar (n % 10) :: ds)
          = (n % 10) * 10 ^ ds.length + decimalValue ds := by
        simp only [decimalValue, List.foldl_cons]
        rw [decimalValue_foldl, digitChar_value _ (Nat.mod_lt _ (by decide))]
        simp [decimalValue]
      rw [hv, List.length_cons, pow_succ]
      have hdm := Nat.div_add_mod n 10
      have e : n * 10 ^ ds.length
          = n / 10 * (10 ^ ds.length * 10) + n % 10 * 10 ^ ds.length := by
        calc n * 10 ^ ds.length = (10 * (n / 10) + n % 10) * 10 ^ ds.length := by rw [hdm]
          _ = n / 10 * (10 ^ ds.length * 10) + n % 10 * 10 ^ ds.length := by ring
      omega

theorem toDigits_value (n : Nat) : decimalValue (Nat.toDigits 10 n) = n := by
  have := toDigitsCore_value (n + 1) n [] (Nat.lt_succ_self n)
  simpa [decimalValue, Nat.toDigits] using this

/-- C8, as stated, fails: with the clock reading -1 (a value of the signed
64-bit range) and a failing random source, `generateAgentID` returns
`agent--1`, which is not `agent-` followed by decimal digits only. -/
theorem generateAgentID_fallback_counterexample :
    (-(2 : Int) ^ 63 ≤ -1 ∧ (-1 : Int) < 2 ^ 63)
    ∧ (generateAgentID none (-1)).1 = "agent--1"
    ∧ isAgentDigits (generateAgentID none (-1)).1 = false := by
  decide

/-- C8, amended: for a clock reading `t ≥ 0` and a failing random source,
`generateAgentID` returns `agent-` followed by a non-empty run of decimal
digits and nothing else, and those digits denote `t`. -/
theorem generateAgentID_fallback (t : Int) (ht : 0 ≤ t) :
    (generateAgentID none t).1 = String.mk ("agent-".toList ++ Nat.toDigits 10 t.toNat)
    ∧ Nat.toDigits 10 t.toNat ≠ []
    ∧ (∀ c ∈ Nat.toDigits 10 t.toNat, c.isDigit = true)
    ∧ (decimalValue (Nat.toDigits 10 t.toNat) : Int) = t
    ∧ isAgentDigits (generateAgentID none t).1 = true := by
  have hnat : t.natAbs = t.toNat := by omega
  have hne : Nat.toDigits 10 t.toNat ≠ [] := toDigitsCore_ne_nil _ _ _ (Or.inr (Nat.succ_pos _))
  have hdig : ∀ c ∈ Nat.toDigits 10 t.toNat, c.isDigit = true :=
    toDigitsCore_isDigit _ _ _ (by simp)
  have hres : (generateAgentID none t).1
      = String.mk ("agent-".toList ++ Nat.toDigits 10 t.toNat) := by
    simp [generateAgentID, formatInt, not_lt.mpr ht, hnat]
  refine ⟨hres, hne, hdig, ?_, ?_⟩
  · rw [toDigits_value]; omega
  · rw [hres]
    cases hd : Nat.toDigits 10 t.toNat with
    | nil => exact absurd hd hne
    | cons d ds =>
      rw [hd] at hdig
      have h1 := hdig d (List.mem_cons_self _ _)
      have h2 : ∀ c ∈ ds, c.isDigit = true := fun c hc => hdig c (List.mem_cons_of_mem _ hc)
      simpa [isAgentDigits, h1] using h2

/-- C8, amended, at the clock reading 1700000000. -/
theorem generateAgentID_fallback_witness :
    (generateAgentID none 1700000000).1
      = String.mk ("agent-".toList ++ Nat.toDigits 10 (1700000000 : Int).toNat) :=
  (generateAgentID_fallback 1700000000 (by decide)).1

end AgentMain
